import Mathlib

/-!
Verification development for the coding-agent repository (src/utils/agent.ts).

The repository wires five local tools (create_directory, list_files, read_file,
edit_file, run_pwt) plus a remote MCP tool set into one generation request.
This file gives a shallow embedding of those tools: the local filesystem is an
explicit state (directories and a file store), Node fs calls become functions
returning `Except` (a thrown exception is the `.error` case, the try/catch of
each tool turns it into the result envelope), and JS semantics that matter are
modelled faithfully (String.prototype.replace including dollar substitution
patterns, truthiness of trimmed strings, object spread with last-wins keys).
-/

set_option maxRecDepth 4000

/-- Character written with code 96 to name it without the literal symbol. -/
def backquoteChar : Char := Char.ofNat 96

/-- Character written with code 39 (the single quote). -/
def singleQuoteChar : Char := Char.ofNat 39

/-- Whitespace set used by the model of String.prototype.trim (the common
ASCII whitespace characters; the full JS set also has some unicode spaces,
which no claim exercises). -/
def isJsSpace (c : Char) : Bool :=
  c = ' ' || c = '\t' || c = '\n' || c = '\r' || c = Char.ofNat 11 || c = Char.ofNat 12

/-- Model of JS String.prototype.trim: drop leading and trailing whitespace. -/
def trimString (s : String) : String :=
  String.mk (((s.data.dropWhile isJsSpace).reverse.dropWhile isJsSpace).reverse)

/-- Whether the first list is a prefix of the second (character lists). -/
def startsWithList : List Char → List Char → Bool
  | [], _ => true
  | _ :: _, [] => false
  | c :: ps, d :: ss => c = d && startsWithList ps ss

/-- Index of the first occurrence of `pat` in `s`, as JS String.indexOf /
the search step of String.replace with a string pattern: smallest index at
which `pat` is a prefix of the remainder (`some 0` for the empty pattern). -/
def strIndexOf (pat : List Char) : List Char → Option Nat
  | [] => if startsWithList pat [] then some 0 else none
  | c :: s2 => if startsWithList pat (c :: s2) then some 0 else (strIndexOf pat s2).map (· + 1)

/-- GetSubstitution of ECMA-262 specialised to a string search value (no
capture groups, no named captures): in the replacement text, a dollar followed
by a dollar yields a dollar, by an ampersand yields the matched string, by a
backquote yields the part of the subject before the match, by a quote yields
the part after the match; any other dollar (including digits, since there are
no captures) is literal. -/
def getSubstitution (matched before after : List Char) : List Char → List Char
  | [] => []
  | c :: rest =>
    if c = '$' then
      match rest with
      | [] => ['$']
      | d :: rest2 =>
        if d = '$' then '$' :: getSubstitution matched before after rest2
        else if d = '&' then matched ++ getSubstitution matched before after rest2
        else if d = backquoteChar then before ++ getSubstitution matched before after rest2
        else if d = singleQuoteChar then after ++ getSubstitution matched before after rest2
        else '$' :: d :: getSubstitution matched before after rest2
    else c :: getSubstitution matched before after rest

/-- Model of JS String.prototype.replace with a string search value: replace
the first occurrence of `pat`, running the replacement text through
GetSubstitution; no occurrence leaves the string unchanged. -/
def jsReplace (s pat rep : List Char) : List Char :=
  match strIndexOf pat s with
  | none => s
  | some i =>
    s.take i ++ getSubstitution pat (s.take i) (s.drop (i + pat.length)) rep
      ++ s.drop (i + pat.length)

/-- Literal first-occurrence replacement, following the words of the spec
(the replacement text is inserted verbatim). Used to compare the claimed
behaviour of edit_file with the JS behaviour `jsReplace`. -/
def replaceFirstLiteral (s pat rep : List Char) : List Char :=
  match strIndexOf pat s with
  | none => s
  | some i => s.take i ++ rep ++ s.drop (i + pat.length)

/-- String-level wrapper of `jsReplace`. -/
def jsReplaceS (s pat rep : String) : String :=
  String.mk (jsReplace s.data pat.data rep.data)

/-- String-level wrapper of `replaceFirstLiteral`. -/
def replaceFirstLiteralS (s pat rep : String) : String :=
  String.mk (replaceFirstLiteral s.data pat.data rep.data)

/-- Lookup in an association list (first binding wins), the model of reading
one key of a key-value store. -/
def lookupAssoc {α : Type} : List (String × α) → String → Option α
  | [], _ => none
  | (k, v) :: rest, p => if k = p then some v else lookupAssoc rest p

/-- Update of an association list: replace the value at the first binding of
the key, or append a fresh binding. This is both the file-store update and
the JS object key assignment (an existing key keeps its position, a new key
is appended in insertion order). -/
def setAssoc {α : Type} : List (String × α) → String → α → List (String × α)
  | [], p, c => [(p, c)]
  | (k, v) :: rest, p, c => if k = p then (k, c) :: rest else (k, v) :: setAssoc rest p c

/-- Keys of an association list, in order. -/
def keysOf {α : Type} (l : List (String × α)) : List String := l.map Prod.fst

/-- JS object spread `\x7b ...base, ...extra \x7d`: assign every binding of
`extra` into `base` in order, later assignments to the same key overriding
earlier ones. -/
def spreadMerge {α : Type} (base extra : List (String × α)) : List (String × α) :=
  extra.foldl (fun acc kv => setAssoc acc kv.1 kv.2) base

/-- Split a character list at the slash separators. -/
def splitPathAux (cur : List Char) : List Char → List (List Char)
  | [] => [cur.reverse]
  | c :: rest => if c = '/' then cur.reverse :: splitPathAux [] rest else splitPathAux (c :: cur) rest

/-- Path components of a path string (split on the slash). -/
def pathComponents (p : String) : List String :=
  (splitPathAux [] p.data).map String.mk

/-- Join path components with slashes. -/
def joinPath : List String → String
  | [] => ""
  | [c] => c
  | c :: rest => c ++ "/" ++ joinPath rest

/-- Directory containing a path: all components but the last, or the current
directory for a single-component path. -/
def parentDir (p : String) : String :=
  let cs := pathComponents p
  if cs.length ≤ 1 then "." else joinPath cs.dropLast

/-- The path together with all the directories above it (proper nonempty
component prefixes), as created by a recursive mkdir. -/
def ancestorsOf (p : String) : List String :=
  let cs := pathComponents p
  (List.range cs.length).map (fun i => joinPath (cs.take (i + 1)))

/-- Filesystem state: the set of existing directories and a file store mapping
paths to text contents. The current directory always exists. -/
structure FS where
  dirs : List String
  files : List (String × String)
deriving DecidableEq

/-- Whether a directory exists (the current directory always does). -/
def dirExists (fs : FS) (p : String) : Bool :=
  p = "." || fs.dirs.contains p

/-- Whether a file exists in the file store. -/
def fileExists (fs : FS) (p : String) : Bool :=
  (lookupAssoc fs.files p).isSome

/-- Model of fs.existsSync: true for a file or a directory at the path. -/
def existsSync (fs : FS) (p : String) : Bool :=
  fileExists fs p || dirExists fs p

/-- Write a file into the store, keeping directories unchanged. -/
def setFile (fs : FS) (p c : String) : FS :=
  { dirs := fs.dirs, files := setAssoc fs.files p c }

/-- Model of fs.readFileSync: a directory path throws, a stored file returns
its contents, anything else throws. -/
def readFileSync (fs : FS) (p : String) : Except String String :=
  if dirExists fs p then .error "EISDIR: illegal operation on a directory, read"
  else
    match lookupAssoc fs.files p with
    | some c => .ok c
    | none => .error "ENOENT: no such file or directory"

/-- Model of fs.writeFileSync: throws when the path is a directory, succeeds
on an existing file (overwrite), and otherwise needs a nonempty path whose
parent directory exists — a missing parent directory is an error, parents are
never created. -/
def writeFileSync (fs : FS) (p c : String) : Except String FS :=
  if dirExists fs p then .error "EISDIR: illegal operation on a directory, write"
  else if fileExists fs p then .ok (setFile fs p c)
  else if p ≠ "" ∧ dirExists fs (parentDir p) then .ok (setFile fs p c)
  else .error "ENOENT: no such file or directory"

/-- Last path component of a path string. -/
def lastComponent (p : String) : String :=
  (pathComponents p).getLastD ""

/-- Direct children names of a directory: entries (directories or files)
whose parent is the given path. -/
def childNames (fs : FS) (p : String) : List String :=
  ((fs.dirs.filter (fun d => parentDir d = p && d ≠ p)).map lastComponent)
    ++ (((fs.files.map Prod.fst).filter (fun f => parentDir f = p && f ≠ p)).map lastComponent)

/-- Model of fs.readdirSync without recursion: a file path throws, an existing
directory lists its direct children, anything else throws. -/
def readdirSync (fs : FS) (p : String) : Except String (List String) :=
  if fileExists fs p then .error "ENOTDIR: not a directory"
  else if dirExists fs p then .ok (childNames fs p)
  else .error "ENOENT: no such file or directory"

/-- Model of fs.mkdirSync with the recursive option: throws when a file sits
at the path or an ancestor, otherwise creates every missing ancestor
directory and the directory itself (existing directories are a no-op). -/
def mkdirSyncRecursive (fs : FS) (p : String) : Except String FS :=
  if (ancestorsOf p).any (fun a => fileExists fs a) then .error "EEXIST: file already exists"
  else .ok { dirs := fs.dirs ++ (ancestorsOf p).filter (fun a => !(dirExists fs a)), files := fs.files }

/-- Result envelope of the create_directory tool: the success branch returns
the path with success true, the catch branch adds the error message with
success false. -/
structure CreateDirResult where
  path : String
  success : Bool
  error : Option String := none
deriving DecidableEq

/-- Result envelope of the list_files tool. The three return shapes of the
source (the guard object with error and generatedPath, the success object
with path and output, the catch object with only error) are encoded by which
optional fields are present. -/
structure ListFilesResult where
  path : Option String := none
  output : Option (List String) := none
  error : Option String := none
  generatedPath : Option (Option String) := none
deriving DecidableEq

/-- Result envelope of the read_file tool: path plus either the file contents
as output or an error message; the source never puts a success flag here. -/
structure ReadFileResult where
  path : String
  output : Option String := none
  error : Option String := none
deriving DecidableEq

/-- Result envelope of the edit_file tool: the success branches return path,
success true and the action name; the catch branch returns the error with
success false and no path. -/
structure EditFileResult where
  path : Option String := none
  success : Bool
  action : Option String := none
  error : Option String := none
deriving DecidableEq

/-- Result envelope of the run_pwt tool: captured streams, the success flag,
and the optional message (tests ran but failed) or error (command failed). -/
structure RunPwtResult where
  stdout : String
  stderr : String
  success : Bool
  message : Option String := none
  error : Option String := none
deriving DecidableEq

/-- The create_directory tool: mkdirSync with the recursive option inside a
try/catch, returning the path with a success flag and, on failure, the error
message. -/
def create_directory (fs : FS) (path : String) : CreateDirResult × FS :=
  match mkdirSyncRecursive fs path with
  | .ok fs2 => ({ path := path, success := true }, fs2)
  | .error e => ({ path := path, success := false, error := some e }, fs)

/-- Path defaulting of list_files: the JS expression tests the truthiness of
the trimmed input, so a null input or an input whose trim is empty resolves
to the current directory, and any other input is used untrimmed. -/
def resolvePath (generatedPath : Option String) : String :=
  match generatedPath with
  | none => "."
  | some s => if trimString s = "" then "." else s

/-- The list_files tool: inputs exactly equal to the two disallowed literals
are rejected before any filesystem call; otherwise the resolved path is
listed, with a readdir failure caught into an error envelope. -/
def list_files (fs : FS) (generatedPath : Option String) : ListFilesResult :=
  if generatedPath = some ".git" ∨ generatedPath = some "node_modules" then
    { error := some "You cannot read the path: ", generatedPath := some generatedPath }
  else
    match readdirSync fs (resolvePath generatedPath) with
    | .ok output => { path := some (resolvePath generatedPath), output := some output }
    | .error e => { error := some e }

/-- The read_file tool: readFileSync inside a try/catch, returning the path
with the contents, or the path with the error message. -/
def read_file (fs : FS) (path : String) : ReadFileResult :=
  match readFileSync fs path with
  | .ok output => { path := path, output := some output }
  | .error e => { path := path, error := some e }

/-- The edit_file tool: when existsSync holds at the path and old_str is not
null, the contents are read, old_str is replaced by new_str via JS
String.replace, and the result is written back (action edit); otherwise
new_str is written as the whole file (action create); any thrown filesystem
error is caught into an error envelope with success false. -/
def edit_file (fs : FS) (path : String) (old_str : Option String) (new_str : String) :
    EditFileResult × FS :=
  match old_str, existsSync fs path with
  | some o, true =>
    match readFileSync fs path with
    | .ok fileContents =>
      match writeFileSync fs path (jsReplaceS fileContents o new_str) with
      | .ok fs2 => ({ path := some path, success := true, action := some "edit" }, fs2)
      | .error e => ({ success := false, error := some e }, fs)
    | .error e => ({ success := false, error := some e }, fs)
  | _, _ =>
    match writeFileSync fs path new_str with
    | .ok fs2 => ({ path := some path, success := true, action := some "create" }, fs2)
    | .error e => ({ success := false, error := some e }, fs)

/-- Outcome of the promisified child_process.exec call made by run_pwt: a
resolution carries the captured stdout and stderr; a rejection carries the
error message and the streams captured so far, each possibly absent. -/
inductive ExecOutcome where
  | ok (stdout stderr : String)
  | err (message : String) (stdout stderr : Option String)
deriving DecidableEq

/-- The run_pwt tool: an exit code of zero returns both streams with success
true; a rejection whose captured stdout is truthy and has a truthy trim is
treated as tests that ran and failed (message set, streams preserved, stderr
defaulted to empty when absent); any other rejection is a command failure
returning the error message with both streams defaulted to empty when
absent. -/
def run_pwt (outcome : ExecOutcome) : RunPwtResult :=
  match outcome with
  | .ok stdout stderr => { stdout := stdout, stderr := stderr, success := true }
  | .err msg so se =>
    if so.getD "" ≠ "" ∧ trimString (so.getD "") ≠ "" then
      { stdout := so.getD "", stderr := se.getD "", success := false,
        message := some "Tests executed but some failed. See results above." }
    else
      { stdout := so.getD "", stderr := se.getD "", success := false, error := some msg }

/-- Marker for where a catalog entry came from, enough to observe which
definition survives a name collision in the merged tool object. -/
inductive ToolOrigin where
  | localDef
  | remoteDef
deriving DecidableEq

/-- Names of the five local tools, in the order they appear in the tools
object of the generation request. -/
def localToolNames : List String :=
  ["create_directory", "list_files", "read_file", "edit_file", "run_pwt"]

/-- The local half of the tools object handed to the generation request. -/
def localCatalog : List (String × ToolOrigin) :=
  localToolNames.map (fun n => (n, ToolOrigin.localDef))

/-- The merged tool catalog of the generation request: the JS object literal
listing the five local tools followed by the spread of the remote tool set,
so remote bindings are assigned last. -/
def mergedCatalog (remote : List (String × ToolOrigin)) : List (String × ToolOrigin) :=
  spreadMerge localCatalog remote

/-- Events observable in one run of codingAgent, in order: the MCP connection
was established, the remote tool catalog was fetched, the generation request
was made. -/
inductive AgentEvent where
  | connected
  | fetchedTools
  | generated
deriving DecidableEq

/-- Control flow of codingAgent around its external calls: each await either
returns a value or rethrows the rejection out of the function (there is no
try/catch), so a connection failure aborts before the tool fetch and the tool
fetch failure aborts before the generation request. The function returns the
final outcome together with the list of events that happened. -/
def codingAgentRun (connectResult : Except String Unit)
    (toolsResult : Except String (List (String × ToolOrigin)))
    (genResult : List (String × ToolOrigin) → String) :
    Except String String × List AgentEvent :=
  match connectResult with
  | .error e => (.error e, [])
  | .ok _ =>
    match toolsResult with
    | .error e => (.error e, [.connected])
    | .ok remoteTools =>
      (.ok (genResult (mergedCatalog remoteTools)), [.connected, .fetchedTools, .generated])

/-- Empty filesystem: no directories beyond the current one, no files. -/
def emptyFS : FS := { dirs := [], files := [] }

/-- Sample filesystem with one file used by concrete witnesses. -/
def sampleFS : FS := { dirs := [], files := [("f.txt", "ab")] }

/-- A replacement text without a dollar sign passes through GetSubstitution
unchanged. -/
theorem getSubstitution_of_no_dollar (m b a : List Char) (rep : List Char)
    (h : '$' ∉ rep) : getSubstitution m b a rep = rep := by
  induction rep with
  | nil => rfl
  | cons c rest ih =>
    rw [List.mem_cons, not_or] at h
    obtain ⟨hc, h2⟩ := h
    have hc2 : ¬(c = '$') := fun he => hc he.symm
    rw [getSubstitution.eq_def]
    simp only [if_neg hc2]
    rw [ih h2]

/-- JS replace and the literal first-occurrence replacement of the spec agree
whenever the replacement text has no dollar sign. -/
theorem jsReplace_of_no_dollar (s pat rep : List Char) (h : '$' ∉ rep) :
    jsReplace s pat rep = replaceFirstLiteral s pat rep := by
  unfold jsReplace replaceFirstLiteral
  cases strIndexOf pat s with
  | none => rfl
  | some i => simp only [getSubstitution_of_no_dollar _ _ _ _ h]

/-- Rebuilding a string from its characters gives the string back. -/
theorem stringMk_data : ∀ (s : String), String.mk s.data = s
  | ⟨_⟩ => rfl

/-- String-level version of `jsReplace_of_no_dollar`. -/
theorem jsReplaceS_of_no_dollar (s pat rep : String) (h : '$' ∉ rep.data) :
    jsReplaceS s pat rep = replaceFirstLiteralS s pat rep := by
  unfold jsReplaceS replaceFirstLiteralS
  rw [jsReplace_of_no_dollar _ _ _ h]

/-- When the pattern does not occur in the subject, JS replace returns the
subject unchanged. -/
theorem jsReplaceS_of_no_match (s pat rep : String) (h : strIndexOf pat.data s.data = none) :
    jsReplaceS s pat rep = s := by
  unfold jsReplaceS jsReplace
  rw [h]

/-- Reading an association list after an update: the updated key holds the
new value and every other key is untouched. -/
theorem lookupAssoc_setAssoc {α : Type} (l : List (String × α)) (p : String) (c : α)
    (q : String) :
    lookupAssoc (setAssoc l p c) q = if q = p then some c else lookupAssoc l q := by
  induction l with
  | nil =>
    by_cases hqp : q = p
    · subst hqp
      simp [setAssoc, lookupAssoc]
    · have hpq : ¬(p = q) := fun he => hqp he.symm
      simp [setAssoc, lookupAssoc, hqp, hpq]
  | cons kv rest ih =>
    obtain ⟨k, v⟩ := kv
    by_cases hkp : k = p
    · subst hkp
      by_cases hqk : q = k
      · subst hqk
        simp [setAssoc, lookupAssoc]
      · have hkq : ¬(k = q) := fun he => hqk he.symm
        simp [setAssoc, lookupAssoc, hqk, hkq]
    · by_cases hqk : q = k
      · subst hqk
        have hqp : ¬(q = p) := hkp
        simp [setAssoc, lookupAssoc, hkp, hqp]
      · have hkq : ¬(k = q) := fun he => hqk he.symm
        simp [setAssoc, lookupAssoc, hkp, hkq, ih]

/-- Keys after an association-list update: unchanged when the key was already
bound, the key appended otherwise. -/
theorem keysOf_setAssoc {α : Type} (l : List (String × α)) (k : String) (v : α) :
    keysOf (setAssoc l k v) = if k ∈ keysOf l then keysOf l else keysOf l ++ [k] := by
  induction l with
  | nil => simp [setAssoc, keysOf]
  | cons kv rest ih =>
    obtain ⟨k0, v0⟩ := kv
    by_cases hk : k0 = k
    · subst hk
      have hmem : k0 ∈ keysOf ((k0, v0) :: rest) := by
        simp [keysOf]
      rw [if_pos hmem]
      have h1 : setAssoc ((k0, v0) :: rest) k0 v = (k0, v) :: rest := by
        simp [setAssoc]
      rw [h1]
      rfl
    · have hk2 : ¬(k = k0) := fun he => hk he.symm
      have h1 : setAssoc ((k0, v0) :: rest) k v = (k0, v0) :: setAssoc rest k v := by
        simp [setAssoc, hk]
      rw [h1]
      have h2 : keysOf ((k0, v0) :: setAssoc rest k v) = k0 :: keysOf (setAssoc rest k v) := rfl
      have h3 : keysOf ((k0, v0) :: rest) = k0 :: keysOf rest := rfl
      rw [h2, h3, ih]
      by_cases hmem : k ∈ keysOf rest
      · rw [if_pos hmem, if_pos (List.mem_cons_of_mem k0 hmem)]
      · have hnotmem : k ∉ (k0 :: keysOf rest) := by
          rw [List.mem_cons, not_or]
          exact ⟨hk2, hmem⟩
        rw [if_neg hmem, if_neg hnotmem, List.cons_append]

/-- An association-list update keeps the keys free of duplicates. -/
theorem nodup_keysOf_setAssoc {α : Type} (l : List (String × α)) (k : String) (v : α)
    (h : (keysOf l).Nodup) : (keysOf (setAssoc l k v)).Nodup := by
  rw [keysOf_setAssoc]
  by_cases hmem : k ∈ keysOf l
  · rwa [if_pos hmem]
  · rw [if_neg hmem]
    refine List.Nodup.append h (List.nodup_singleton k) ?_
    intro a ha hb
    rw [List.mem_singleton] at hb
    exact hmem (hb ▸ ha)

/-- Spreading any extra bindings over a base whose keys are free of
duplicates yields a catalog whose keys are still free of duplicates. -/
theorem nodup_keysOf_spreadMerge {α : Type} (extra : List (String × α)) :
    ∀ base : List (String × α), (keysOf base).Nodup → (keysOf (spreadMerge base extra)).Nodup := by
  induction extra with
  | nil => intro base h; exact h
  | cons kv rest ih =>
    intro base h
    exact ih (setAssoc base kv.1 kv.2) (nodup_keysOf_setAssoc base kv.1 kv.2 h)

/-- Spreading bindings that do not mention a key leaves that key's value
alone. -/
theorem lookupAssoc_spreadMerge_not_mem {α : Type} (extra : List (String × α)) :
    ∀ (base : List (String × α)) (k : String), k ∉ keysOf extra →
      lookupAssoc (spreadMerge base extra) k = lookupAssoc base k := by
  induction extra with
  | nil => intro base k _; rfl
  | cons kv rest ih =>
    obtain ⟨k1, v1⟩ := kv
    intro base k h
    have hcons : keysOf ((k1, v1) :: rest) = k1 :: keysOf rest := rfl
    rw [hcons, List.mem_cons, not_or] at h
    obtain ⟨hk1, hrest⟩ := h
    have hstep : spreadMerge base ((k1, v1) :: rest) = spreadMerge (setAssoc base k1 v1) rest := rfl
    rw [hstep, ih (setAssoc base k1 v1) k hrest, lookupAssoc_setAssoc, if_neg hk1]

/-- Every binding of the spread extra object wins in the merged catalog:
assignments made later override earlier ones with the same key (the extra
object binds each key once, as a JS object does). -/
theorem lookupAssoc_spreadMerge_mem {α : Type} (extra : List (String × α)) :
    ∀ (base : List (String × α)) (k : String) (v : α),
      (keysOf extra).Nodup → (k, v) ∈ extra →
      lookupAssoc (spreadMerge base extra) k = some v := by
  induction extra with
  | nil =>
    intro base k v _ hm
    cases hm
  | cons kv rest ih =>
    obtain ⟨k1, v1⟩ := kv
    intro base k v hnd hm
    have hcons : keysOf ((k1, v1) :: rest) = k1 :: keysOf rest := rfl
    rw [hcons] at hnd
    have hnd1 : k1 ∉ keysOf rest := (List.nodup_cons.mp hnd).1
    have hnd2 : (keysOf rest).Nodup := (List.nodup_cons.mp hnd).2
    have hstep : spreadMerge base ((k1, v1) :: rest) = spreadMerge (setAssoc base k1 v1) rest := rfl
    rw [hstep]
    rcases List.mem_cons.mp hm with hhead | htail
    · obtain ⟨hk, hv⟩ := Prod.mk.inj hhead
      subst hk
      subst hv
      rw [lookupAssoc_spreadMerge_not_mem rest (setAssoc base k v) k hnd1,
        lookupAssoc_setAssoc, if_pos rfl]
    · exact ih (setAssoc base k1 v1) k v hnd2 htail

/-- Evaluation of the edit branch of edit_file: when a file with the given
contents sits at the path (and no directory does) and old_str is not null,
the tool reads the contents, writes back the JS replacement, and reports the
edit action with success. -/
theorem edit_file_edit_branch (fs : FS) (p o n content : String)
    (hf : lookupAssoc fs.files p = some content) (hd : dirExists fs p = false) :
    edit_file fs p (some o) n =
      ({ path := some p, success := true, action := some "edit" },
        setFile fs p (jsReplaceS content o n)) := by
  have hfe : fileExists fs p = true := by rw [fileExists, hf]; rfl
  have hex : existsSync fs p = true := by rw [existsSync, hfe, hd]; rfl
  have hread : readFileSync fs p = .ok content := by
    simp [readFileSync, hd, hf]
  have hwrite : writeFileSync fs p (jsReplaceS content o n) =
      .ok (setFile fs p (jsReplaceS content o n)) := by
    simp [writeFileSync, hd, hfe]
  rw [edit_file.eq_def, hex]
  simp only [hread, hwrite]

/-- Evaluation of the create branch of edit_file when the write succeeds. -/
theorem edit_file_create_ok (fs : FS) (p n : String)
    (hw : writeFileSync fs p n = .ok (setFile fs p n)) :
    edit_file fs p none n =
      ({ path := some p, success := true, action := some "create" }, setFile fs p n) := by
  cases hex : existsSync fs p with
  | false =>
    rw [edit_file.eq_def, hex]
    simp only [hw]
  | true =>
    rw [edit_file.eq_def, hex]
    simp only [hw]

/-- Evaluation of the create branch of edit_file when the write throws. -/
theorem edit_file_create_err (fs : FS) (p n e : String)
    (hw : writeFileSync fs p n = .error e) :
    edit_file fs p none n = ({ success := false, error := some e }, fs) := by
  cases hex : existsSync fs p with
  | false =>
    rw [edit_file.eq_def, hex]
    simp only [hw]
  | true =>
    rw [edit_file.eq_def, hex]
    simp only [hw]

/-- Inversion of a successful writeFileSync: the new state is the file store
update and the target path was not a directory. -/
theorem writeFileSync_ok_inv (fs : FS) (p c : String) (fs2 : FS)
    (hw : writeFileSync fs p c = .ok fs2) :
    fs2 = setFile fs p c ∧ dirExists fs p = false := by
  unfold writeFileSync at hw
  by_cases hd : dirExists fs p = true
  · rw [if_pos hd] at hw
    cases hw
  · have hd2 : dirExists fs p = false := by
      cases hval : dirExists fs p
      · rfl
      · exact absurd hval hd
    rw [if_neg hd] at hw
    by_cases hf : fileExists fs p = true
    · rw [if_pos hf] at hw
      exact ⟨(Except.ok.inj hw).symm, hd2⟩
    · rw [if_neg hf] at hw
      by_cases hp : p ≠ "" ∧ dirExists fs (parentDir p) = true
      · rw [if_pos hp] at hw
        exact ⟨(Except.ok.inj hw).symm, hd2⟩
      · rw [if_neg hp] at hw
        cases hw

/-- Claim C1 as stated: for every existing file and non-null old_str, the
tool replaces the first literal occurrence of old_str by new_str verbatim
(the rest of the contents unchanged) and reports success with action edit. -/
def c1Stated : Prop :=
  ∀ (fs : FS) (p old new content : String),
    lookupAssoc fs.files p = some content → dirExists fs p = false →
    edit_file fs p (some old) new =
      ({ path := some p, success := true, action := some "edit" },
        setFile fs p (replaceFirstLiteralS content old new))

/-- C1 is false as stated: on the file containing "ab", replacing "a" with
the new string made of dollar, ampersand, x leaves "axb" in the file (JS
String.replace expands the dollar-ampersand pattern to the matched text),
not the literal replacement "$&xb" the claim promises. -/
theorem c1_counterexample : ¬ c1Stated := by
  intro h
  have h1 := h sampleFS "f.txt" "a" "$&x" "ab" (by decide) (by decide)
  have h2 : edit_file sampleFS "f.txt" (some "a") "$&x" ≠
      ({ path := some "f.txt", success := true, action := some "edit" },
        setFile sampleFS "f.txt" (replaceFirstLiteralS "ab" "a" "$&x")) := by decide
  exact h2 h1

/-- C1 (amended): for every existing file and non-null old_str whose
replacement text contains no dollar character, edit_file reads the contents,
replaces only the first literal occurrence of old_str with new_str (the rest
byte-for-byte unchanged), writes the result back, and returns success true
with action edit. -/
theorem c1_edit_replaces_first_occurrence (fs : FS) (p old new content : String)
    (hf : lookupAssoc fs.files p = some content) (hd : dirExists fs p = false)
    (hnd : '$' ∉ new.data) :
    edit_file fs p (some old) new =
      ({ path := some p, success := true, action := some "edit" },
        setFile fs p (replaceFirstLiteralS content old new)) := by
  rw [edit_file_edit_branch fs p old new content hf hd,
    jsReplaceS_of_no_dollar content old new hnd]

/-- Concrete run of the amended C1 theorem on the sample file. -/
theorem c1_witness :
    edit_file sampleFS "f.txt" (some "a") "zz" =
      ({ path := some "f.txt", success := true, action := some "edit" },
        setFile sampleFS "f.txt" (replaceFirstLiteralS "ab" "a" "zz")) :=
  c1_edit_replaces_first_occurrence sampleFS "f.txt" "a" "zz" "ab"
    (by decide) (by decide) (by decide)

/-- Claim C4 as stated: edit_file with null old_str always creates the file
with exactly the given contents and reports success with action create, for
every path. -/
def c4Stated : Prop :=
  ∀ (fs : FS) (p content : String),
    (edit_file fs p none content).1 =
      { path := some p, success := true, action := some "create" } ∧
    lookupAssoc (edit_file fs p none content).2.files p = some content

/-- C4 is false as stated: writing "a/b.txt" on an empty filesystem fails
(writeFileSync does not create the missing parent directory "a"), so the
tool returns an error envelope with success false instead of the promised
success. -/
theorem c4_counterexample : ¬ c4Stated := by
  intro h
  have h1 := (h emptyFS "a/b.txt" "hi").1
  have h2 : (edit_file emptyFS "a/b.txt" none "hi").1 ≠
      { path := some "a/b.txt", success := true, action := some "create" } := by decide
  exact h2 h1

/-- C4 (amended): edit_file with null old_str creates or overwrites the path
with exactly the given contents and returns success with action create
whenever the write can land (the path is not a directory, and either the
file already exists or the path is nonempty with an existing parent
directory); when the parent directory is missing and the file does not
exist, no directories are created: the tool returns an error envelope with
success false and the filesystem is unchanged. -/
theorem c4_create_overwrite :
    (∀ (fs : FS) (p content : String), dirExists fs p = false →
      (fileExists fs p = true ∨ (p ≠ "" ∧ dirExists fs (parentDir p) = true)) →
      edit_file fs p none content =
        ({ path := some p, success := true, action := some "create" },
          setFile fs p content) ∧
      lookupAssoc (setFile fs p content).files p = some content) ∧
    (∀ (fs : FS) (p content : String), dirExists fs p = false →
      fileExists fs p = false → dirExists fs (parentDir p) = false →
      (edit_file fs p none content).1.success = false ∧
      (edit_file fs p none content).1.error.isSome = true ∧
      (edit_file fs p none content).2 = fs) := by
  constructor
  · intro fs p content hd hok
    have hw : writeFileSync fs p content = .ok (setFile fs p content) := by
      rcases hok with hfe | ⟨hne, hpar⟩
      · simp [writeFileSync, hd, hfe]
      · cases hfe2 : fileExists fs p with
        | true => simp [writeFileSync, hd, hfe2]
        | false => simp [writeFileSync, hd, hfe2, hne, hpar]
    refine ⟨edit_file_create_ok fs p content hw, ?_⟩
    show lookupAssoc (setAssoc fs.files p content) p = some content
    rw [lookupAssoc_setAssoc, if_pos rfl]
  · intro fs p content hd hfe hpar
    have hw : writeFileSync fs p content = .error "ENOENT: no such file or directory" := by
      simp [writeFileSync, hd, hfe, hpar]
    rw [edit_file_create_err fs p content _ hw]
    exact ⟨rfl, rfl, rfl⟩

/-- Concrete runs of the amended C4 theorem: a top-level create succeeds, a
create under a missing parent directory fails. -/
theorem c4_witness :
    edit_file emptyFS "b.txt" none "hi" =
      ({ path := some "b.txt", success := true, action := some "create" },
        setFile emptyFS "b.txt" "hi") ∧
    (edit_file emptyFS "a/b.txt" none "hi").1.success = false :=
  ⟨(c4_create_overwrite.1 emptyFS "b.txt" "hi" (by decide)
      (Or.inr ⟨by decide, by decide⟩)).1,
    (c4_create_overwrite.2 emptyFS "a/b.txt" "hi" (by decide) (by decide) (by decide)).1⟩

/-- C9: when the file exists and the non-null old_str has no occurrence in
its contents, edit_file still reports success with action edit and the file
store reads the same on every path afterwards (JS replace with no match
returns the subject unchanged, and the unchanged contents are written
back). -/
theorem c9_edit_no_match (fs : FS) (p old new content : String)
    (hf : lookupAssoc fs.files p = some content) (hd : dirExists fs p = false)
    (hno : strIndexOf old.data content.data = none) :
    (edit_file fs p (some old) new).1 =
      { path := some p, success := true, action := some "edit" } ∧
    ∀ q, lookupAssoc (edit_file fs p (some old) new).2.files q = lookupAssoc fs.files q := by
  rw [edit_file_edit_branch fs p old new content hf hd]
  constructor
  · rfl
  · intro q
    show lookupAssoc (setAssoc fs.files p (jsReplaceS content old new)) q = _
    rw [jsReplaceS_of_no_match content old new hno, lookupAssoc_setAssoc]
    by_cases hq : q = p
    · rw [if_pos hq, hq, hf]
    · rw [if_neg hq]

/-- Concrete run of the C9 theorem: replacing an absent string in the sample
file succeeds as an edit and leaves the contents identical. -/
theorem c9_witness :
    (edit_file sampleFS "f.txt" (some "zz") "q").1 =
      { path := some "f.txt", success := true, action := some "edit" } ∧
    lookupAssoc (edit_file sampleFS "f.txt" (some "zz") "q").2.files "f.txt" = some "ab" := by
  have h := c9_edit_no_match sampleFS "f.txt" "zz" "q" "ab" (by decide) (by decide) (by decide)
  refine ⟨h.1, ?_⟩
  rw [h.2 "f.txt"]
  decide

/-- C7: when edit_file with null old_str succeeds after create_directory of
the parent of the path, read_file at the path returns exactly the string
that was written. -/
theorem c7_roundtrip (fs : FS) (p s : String)
    (h : (edit_file (create_directory fs (parentDir p)).2 p none s).1.success = true) :
    (read_file (edit_file (create_directory fs (parentDir p)).2 p none s).2 p).output
      = some s := by
  generalize (create_directory fs (parentDir p)).2 = fs1 at h ⊢
  cases hw : writeFileSync fs1 p s with
  | error e =>
    rw [edit_file_create_err fs1 p s e hw] at h
    simp at h
  | ok fs2 =>
    obtain ⟨hfs2, hd⟩ := writeFileSync_ok_inv fs1 p s fs2 hw
    subst hfs2
    rw [edit_file_create_ok fs1 p s hw]
    have hd2 : dirExists (setFile fs1 p s) p = false := hd
    have hlook : lookupAssoc (setFile fs1 p s).files p = some s := by
      show lookupAssoc (setAssoc fs1.files p s) p = some s
      rw [lookupAssoc_setAssoc, if_pos rfl]
    have hread : readFileSync (setFile fs1 p s) p = .ok s := by
      simp [readFileSync, hd2, hlook]
    simp [read_file, hread]

/-- Concrete run of the C7 theorem: create the tests directory, write a spec
file, read it back. -/
theorem c7_witness :
    (read_file (edit_file (create_directory emptyFS (parentDir "tests/a.spec.ts")).2
      "tests/a.spec.ts" none "hello").2 "tests/a.spec.ts").output = some "hello" :=
  c7_roundtrip emptyFS "tests/a.spec.ts" "hello" (by decide)

/-- Claim C2 as stated: exit zero returns both streams with success true; a
failing process with non-empty captured stdout returns success false with a
message and the stdout preserved; a process that failed to run (empty stdout
on the error) returns the error with empty stdout and empty stderr. -/
def c2Stated : Prop :=
  (∀ stdout stderr, run_pwt (.ok stdout stderr) =
    { stdout := stdout, stderr := stderr, success := true }) ∧
  (∀ msg so se s, so = some s → s ≠ "" →
    (run_pwt (.err msg so se)).success = false ∧
    (run_pwt (.err msg so se)).message.isSome = true ∧
    (run_pwt (.err msg so se)).stdout = s) ∧
  (∀ msg so se, so.getD "" = "" →
    run_pwt (.err msg so se) =
      { stdout := "", stderr := "", success := false, error := some msg })

/-- C2 is false as stated: a failing process whose captured stdout is the
single space is a non-empty stdout, yet the source tests the trimmed stdout
for truthiness, so this run lands in the command-error branch and carries no
message. -/
theorem c2_counterexample : ¬ c2Stated := by
  intro h
  have h1 := (h.2.1 "boom" (some " ") (some "e") " " rfl (by decide)).2.1
  exact (by decide :
    ¬((run_pwt (.err "boom" (some " ") (some "e"))).message.isSome = true)) h1

/-- C2 (amended): exit zero returns both streams with success true; a
rejection whose captured stdout has a non-blank character (truthy trim)
returns success false with the message set, the stdout preserved verbatim
and the stderr defaulted to empty when absent; any other rejection (stdout
absent, empty or whitespace-only) returns the error message with both
captured streams passed through, each defaulted to empty when absent. -/
theorem c2_three_outcomes :
    (∀ stdout stderr, run_pwt (.ok stdout stderr) =
      { stdout := stdout, stderr := stderr, success := true }) ∧
    (∀ msg s se, trimString s ≠ "" →
      run_pwt (.err msg (some s) se) =
        { stdout := s, stderr := se.getD "", success := false,
          message := some "Tests executed but some failed. See results above." }) ∧
    (∀ msg so se, trimString (so.getD "") = "" →
      run_pwt (.err msg so se) =
        { stdout := so.getD "", stderr := se.getD "", success := false,
          error := some msg }) := by
  refine ⟨fun _ _ => rfl, ?_, ?_⟩
  · intro msg s se h
    have hs : s ≠ "" := by
      intro he
      rw [he] at h
      exact h rfl
    show run_pwt (.err msg (some s) se) = _
    rw [run_pwt.eq_def]
    simp only []
    rw [if_pos ⟨hs, h⟩]
    rfl
  · intro msg so se h
    have hc : ¬(so.getD "" ≠ "" ∧ trimString (so.getD "") ≠ "") := by
      intro hcc
      exact hcc.2 h
    rw [run_pwt.eq_def]
    simp only []
    rw [if_neg hc]

/-- Concrete runs of the amended C2 theorem on each of the three outcomes. -/
theorem c2_witness :
    run_pwt (.ok "3 passed" "") = { stdout := "3 passed", stderr := "", success := true } ∧
    run_pwt (.err "exit 1" (some "1 failed") none) =
      { stdout := "1 failed", stderr := "", success := false,
        message := some "Tests executed but some failed. See results above." } ∧
    run_pwt (.err "spawn error" none (some "not found")) =
      { stdout := "", stderr := "not found", success := false,
        error := some "spawn error" } :=
  ⟨c2_three_outcomes.1 "3 passed" "",
    c2_three_outcomes.2.1 "exit 1" "1 failed" none (by decide),
    c2_three_outcomes.2.2 "spawn error" none (some "not found") (by decide)⟩

/-- C3 is false as stated: a remote tool set that also names run_pwt merges
into an ordinary five-entry catalog in which the remote definition has
silently replaced the local one (spread assignment, last wins); the
construction is total and raises no configuration error. -/
theorem c3_counterexample :
    keysOf (mergedCatalog [("run_pwt", ToolOrigin.remoteDef)]) = localToolNames ∧
    lookupAssoc (mergedCatalog [("run_pwt", ToolOrigin.remoteDef)]) "run_pwt" =
      some ToolOrigin.remoteDef ∧
    lookupAssoc localCatalog "run_pwt" = some ToolOrigin.localDef := by decide

/-- C3 (amended): the merged catalog never contains a duplicate tool name,
because JS object construction keeps one entry per key; but a remote tool
whose name collides with a local tool silently overrides the local
definition (every remote binding wins in the merged catalog) instead of
surfacing a configuration error. -/
theorem c3_merged_catalog (remote : List (String × ToolOrigin))
    (hnd : (keysOf remote).Nodup) :
    (keysOf (mergedCatalog remote)).Nodup ∧
    ∀ k v, (k, v) ∈ remote → lookupAssoc (mergedCatalog remote) k = some v := by
  constructor
  · exact nodup_keysOf_spreadMerge remote localCatalog (by decide)
  · intro k v hm
    exact lookupAssoc_spreadMerge_mem remote localCatalog k v hnd hm

/-- Concrete run of the amended C3 theorem on a remote set with one fresh
name and one collision. -/
theorem c3_witness :
    (keysOf (mergedCatalog
      [("browser_click", ToolOrigin.remoteDef), ("run_pwt", ToolOrigin.remoteDef)])).Nodup ∧
    lookupAssoc (mergedCatalog
      [("browser_click", ToolOrigin.remoteDef), ("run_pwt", ToolOrigin.remoteDef)])
      "run_pwt" = some ToolOrigin.remoteDef := by
  have h := c3_merged_catalog
    [("browser_click", ToolOrigin.remoteDef), ("run_pwt", ToolOrigin.remoteDef)] (by decide)
  exact ⟨h.1, h.2 "run_pwt" ToolOrigin.remoteDef (by decide)⟩

/-- C5: list_files on either disallowed literal returns the guard error
envelope and its result does not depend on the filesystem state at all (no
filesystem operation is performed); on any other input, a readdir failure at
the resolved path is returned as an error envelope. -/
theorem c5_guard_and_io_error :
    (∀ (fs fs2 : FS) (gp : Option String),
      (gp = some ".git" ∨ gp = some "node_modules") →
      list_files fs gp =
        { error := some "You cannot read the path: ", generatedPath := some gp } ∧
      list_files fs gp = list_files fs2 gp) ∧
    (∀ (fs : FS) (gp : Option String) (e : String),
      ¬(gp = some ".git" ∨ gp = some "node_modules") →
      readdirSync fs (resolvePath gp) = .error e →
      list_files fs gp = { error := some e }) := by
  constructor
  · intro fs fs2 gp hgp
    constructor
    · unfold list_files
      rw [if_pos hgp]
    · unfold list_files
      rw [if_pos hgp, if_pos hgp]
  · intro fs gp e hgp hrd
    unfold list_files
    rw [if_neg hgp, hrd]

/-- Concrete runs of the C5 theorem: the version-control literal is blocked,
and a missing directory elsewhere comes back as an error envelope. -/
theorem c5_witness :
    list_files emptyFS (some ".git") =
      { error := some "You cannot read the path: ", generatedPath := some (some ".git") } ∧
    list_files emptyFS (some "missing") =
      { error := some "ENOENT: no such file or directory" } :=
  ⟨(c5_guard_and_io_error.1 emptyFS emptyFS (some ".git") (Or.inl rfl)).1,
    c5_guard_and_io_error.2 emptyFS (some "missing") "ENOENT: no such file or directory"
      (by decide) (by rfl)⟩

/-- C10: a path whose trim is empty (the empty string or whitespace only)
resolves to the current directory, so list_files treats it exactly as a null
path. -/
theorem c10_blank_path_defaults (fs : FS) (s : String) (h : trimString s = "") :
    resolvePath (some s) = "." ∧ list_files fs (some s) = list_files fs none := by
  have hres : resolvePath (some s) = "." := by
    show (if trimString s = "" then "." else s) = "."
    rw [if_pos h]
  refine ⟨hres, ?_⟩
  have hg1 : ¬(some s = some ".git" ∨ some s = some "node_modules") := by
    rintro (hc | hc)
    · injection hc with hc2
      rw [hc2] at h
      exact absurd h (by decide)
    · injection hc with hc2
      rw [hc2] at h
      exact absurd h (by decide)
  have hg2 : ¬((none : Option String) = some ".git" ∨
      (none : Option String) = some "node_modules") := by decide
  unfold list_files
  rw [if_neg hg1, if_neg hg2, hres]
  rfl

/-- Concrete run of the C10 theorem on a whitespace-only path. -/
theorem c10_witness :
    resolvePath (some "   ") = "." ∧
    list_files emptyFS (some "   ") = list_files emptyFS none :=
  c10_blank_path_defaults emptyFS "   " (by decide)

/-- C8: when the MCP connection fails at startup, codingAgent propagates
exactly that error to its caller and no generation request happens (the
generated event is absent from the run trace, so no request with a degraded
or empty remote tool set is ever made). -/
theorem c8_connect_failure_aborts (e : String)
    (toolsResult : Except String (List (String × ToolOrigin)))
    (genResult : List (String × ToolOrigin) → String) :
    (codingAgentRun (.error e) toolsResult genResult).1 = .error e ∧
    AgentEvent.generated ∉ (codingAgentRun (.error e) toolsResult genResult).2 := by
  constructor
  · rfl
  · intro hm
    exact List.not_mem_nil _ hm

/-- Claim C6 as stated: every result of the five tools either contains
success true or carries an error field. The result objects of list_files and
read_file never hold a success key in the source, so for those two tools the
first disjunct is impossible and the stated claim reduces to the error field
always being present. -/
def c6Stated : Prop :=
  (∀ (fs : FS) (p : String),
    (create_directory fs p).1.success = true ∨
    (create_directory fs p).1.error.isSome = true) ∧
  (∀ (fs : FS) (gp : Option String), (list_files fs gp).error.isSome = true) ∧
  (∀ (fs : FS) (p : String), (read_file fs p).error.isSome = true) ∧
  (∀ (fs : FS) (p : String) (o : Option String) (n : String),
    (edit_file fs p o n).1.success = true ∨
    (edit_file fs p o n).1.error.isSome = true) ∧
  (∀ oc : ExecOutcome,
    (run_pwt oc).success = true ∨ (run_pwt oc).error.isSome = true)

/-- C6 is false as stated: a successful read_file returns only the path and
the output, an envelope that neither contains success true (the object has
no success key) nor carries an error field. -/
theorem c6_counterexample : ¬ c6Stated := by
  intro h
  exact (by decide : ¬((read_file sampleFS "f.txt").error.isSome = true))
    (h.2.2.1 sampleFS "f.txt")

/-- C6 (amended): each tool is a total function on its validated input and
the filesystem or process outcome — the embedding of the try/catch at every
tool boundary — and its result is always one of the envelope shapes of the
source: create_directory and edit_file return success true with no error or
success false with an error; list_files and read_file return an output or an
error (their success envelopes carry no success flag); run_pwt returns
success true, or success false carrying an error or a message. -/
theorem c6_envelopes :
    (∀ (fs : FS) (p : String),
      ((create_directory fs p).1.success = true ∧ (create_directory fs p).1.error = none) ∨
      ((create_directory fs p).1.success = false ∧
        (create_directory fs p).1.error.isSome = true)) ∧
    (∀ (fs : FS) (gp : Option String),
      (list_files fs gp).output.isSome = true ∨ (list_files fs gp).error.isSome = true) ∧
    (∀ (fs : FS) (p : String),
      (read_file fs p).output.isSome = true ∨ (read_file fs p).error.isSome = true) ∧
    (∀ (fs : FS) (p : String) (o : Option String) (n : String),
      ((edit_file fs p o n).1.success = true ∧ (edit_file fs p o n).1.error = none) ∨
      ((edit_file fs p o n).1.success = false ∧ (edit_file fs p o n).1.error.isSome = true)) ∧
    (∀ oc : ExecOutcome,
      (run_pwt oc).success = true ∨
      ((run_pwt oc).success = false ∧
        ((run_pwt oc).error.isSome = true ∨ (run_pwt oc).message.isSome = true))) := by
  refine ⟨?_, ?_, ?_, ?_, ?_⟩
  · intro fs p
    rw [create_directory.eq_def]
    cases mkdirSyncRecursive fs p with
    | ok fs2 => exact Or.inl ⟨rfl, rfl⟩
    | error e => exact Or.inr ⟨rfl, rfl⟩
  · intro fs gp
    by_cases hg : gp = some ".git" ∨ gp = some "node_modules"
    · right
      unfold list_files
      rw [if_pos hg]
      rfl
    · unfold list_files
      rw [if_neg hg]
      cases readdirSync fs (resolvePath gp) with
      | ok out => exact Or.inl rfl
      | error e => exact Or.inr rfl
  · intro fs p
    rw [read_file.eq_def]
    cases readFileSync fs p with
    | ok out => exact Or.inl rfl
    | error e => exact Or.inr rfl
  · intro fs p o n
    rw [edit_file.eq_def]
    split
    · cases readFileSync fs p with
      | ok contents =>
        simp only []
        cases writeFileSync fs p (jsReplaceS contents _ n) with
        | ok fs2 => exact Or.inl ⟨rfl, rfl⟩
        | error e => exact Or.inr ⟨rfl, rfl⟩
      | error e => exact Or.inr ⟨rfl, rfl⟩
    · cases writeFileSync fs p n with
      | ok fs2 => exact Or.inl ⟨rfl, rfl⟩
      | error e => exact Or.inr ⟨rfl, rfl⟩
  · intro oc
    cases oc with
    | ok out errS => exact Or.inl rfl
    | err msg so se =>
      rw [run_pwt.eq_def]
      simp only []
      by_cases hc : so.getD "" ≠ "" ∧ trimString (so.getD "") ≠ ""
      · rw [if_pos hc]
        exact Or.inr ⟨rfl, Or.inr rfl⟩
      · rw [if_neg hc]
        exact Or.inr ⟨rfl, Or.inl rfl⟩
